import Mathlib

/-!
Shallow embedding of the two-phase-commit orchestrator of the
Teye-Contracts repository (src/contracts/orchestrator): the transaction
manager, the validator, the rollback manager and the deadlock detector.
Participant calls are modelled by an oracle deciding whether a call
succeeds; ledger storage and the event stream are threaded explicitly
through a small World state.
-/

namespace Orchestrator

/-- Modelled from the spec: the transaction lifecycle states of section 4.1
of the spec. The enum itself is declared in the common crate, which is not
part of src/; its variants are the six states named by the spec and matched
on in src/contracts/orchestrator/src/validation.rs. -/
inductive TransactionPhase where
  | Initiated
  | Preparing
  | Prepared
  | Committed
  | RolledBack
  | TimedOut
deriving DecidableEq, Repr

/-- Modelled from the spec: the error taxonomy of section 7 of the spec.
The enum is declared in the common crate (not in src/); every variant below
is referenced by the orchestrator sources. -/
inductive TransactionError where
  | InvalidInput
  | InvalidPhase
  | Unauthorized
  | ContractCallFailed
  | RollbackFailed
  | TransactionNotFound
  | OperationNotFound
deriving DecidableEq, Repr

/-- Modelled from the spec: one unit of work against one participant
(data model, section 3 of the spec). The struct is declared in the common
crate (not in src/); the fields are exactly those read and written by the
orchestrator sources. Addresses are identities; the sources test them with
is_none/is_some, so they are embedded as Option Nat. -/
structure TransactionOperation where
  operation_id : Nat
  contract_type : Nat
  contract_address : Option Nat
  function_name : String
  parameters : List String
  locked_resources : List String
  prepared : Bool
  committed : Bool
  error : Option String
deriving DecidableEq, Repr

/-- Modelled from the spec: the record of one orchestrated transaction
(data model, section 3 of the spec). Declared in the common crate (not in
src/); fields as used by the orchestrator sources. -/
structure TransactionLog where
  transaction_id : Nat
  initiator : Nat
  phase : TransactionPhase
  operations : List TransactionOperation
  created_at : Nat
  updated_at : Nat
  timeout_seconds : Nat
  error : Option String
deriving DecidableEq, Repr

/-- Modelled from the spec: the deadlock report (data model, section 3 of
the spec). Declared in the common crate (not in src/); fields as built by
resolve_deadlock in src/contracts/orchestrator/src/deadlock.rs. -/
structure DeadlockInfo where
  transaction_id : Nat
  conflicting_transactions : List Nat
  conflicting_resources : List String
  detected_at : Nat
deriving DecidableEq, Repr

/-- One synchronous participant invocation: target address, derived entry
point name, and the ordered string parameters, as assembled by
call_prepare_function, call_commit_function and rollback_operation. -/
structure Call where
  address : Option Nat
  entry : String
  parameters : List String
deriving DecidableEq, Repr

/-- Observable lifecycle notifications published by the orchestrator; the
payload is reduced to the identifying ids (messages and snapshots carried
by the real events do not influence control flow). -/
inductive Event where
  | operationPrepared (tx op : Nat)
  | operationFailed (tx op : Nat)
  | transactionPrepared (tx : Nat)
  | operationCommitted (tx op : Nat)
  | operationRolledBack (tx op : Nat)
  | rollbackFailed (tx op : Nat)
  | prepErr (op : Nat)
  | commitErr (op : Nat)
  | rollbackErr (op : Nat)
deriving DecidableEq, Repr

/-- The stateful context threaded through the stateful operations: the
persistent transaction-log store (keyed by transaction_id), the event
stream, and the participant calls made so far (in order). -/
structure World where
  store : List (Nat × TransactionLog)
  events : List Event
  calls : List Call
deriving DecidableEq, Repr

/-- Write a transaction log into the keyed store, replacing an existing
entry with the same key (set_transaction_log of the common crate). -/
def storeSet : List (Nat × TransactionLog) → Nat → TransactionLog → List (Nat × TransactionLog)
  | [], k, v => [(k, v)]
  | (k0, v0) :: rest, k, v =>
    if k0 = k then (k, v) :: rest else (k0, v0) :: storeSet rest k v

/-- set_transaction_log as an action on the World. -/
def setTransactionLog (w : World) (log : TransactionLog) : World :=
  { w with store := storeSet w.store log.transaction_id log }

/-- validate_phase_transition from src/contracts/orchestrator/src/validation.rs
(lines 130-148): a whitelist of valid phase pairs, everything else is
InvalidPhase. -/
def validatePhaseTransition (fromPhase toPhase : TransactionPhase) : Except TransactionError Unit :=
  match fromPhase, toPhase with
  | .Preparing, .Prepared => Except.ok ()
  | .Prepared, .Committed => Except.ok ()
  | .Prepared, .RolledBack => Except.ok ()
  | .Preparing, .RolledBack => Except.ok ()
  | .Preparing, .TimedOut => Except.ok ()
  | .Prepared, .TimedOut => Except.ok ()
  | _, _ => Except.error .InvalidPhase

/-- The u64 maximum, used by the saturating addition of
is_transaction_expired_check. -/
def U64MAX : Nat := 2 ^ 64 - 1

/-- u64::saturating_add for operands below 2^64. -/
def saturatingAdd (a b : Nat) : Nat := min (a + b) U64MAX

/-- is_transaction_expired_check from
src/contracts/orchestrator/src/validation.rs (lines 207-214). -/
def isTransactionExpiredCheck (created_at timeout_seconds current_timestamp : Nat) : Bool :=
  let deadline := saturatingAdd created_at timeout_seconds
  current_timestamp > deadline

/-- TransactionManager::validate_operation from
src/contracts/orchestrator/src/transaction.rs (lines 213-230): contract
address present, function name non-empty, operation id non-zero. -/
def validateOperation (op : TransactionOperation) : Except TransactionError Unit :=
  if op.contract_address.isNone then Except.error .InvalidInput
  else if op.function_name = "" then Except.error .InvalidInput
  else if op.operation_id = 0 then Except.error .InvalidInput
  else Except.ok ()

/-- The duplicate-id scan of TransactionManager::validate_transaction: walk
the operations keeping the ids seen so far, failing on the first repeat. -/
def dupScan : List TransactionOperation → List Nat → Except TransactionError Unit
  | [], _ => Except.ok ()
  | op :: rest, seen =>
    if op.operation_id ∈ seen then Except.error .InvalidInput
    else dupScan rest (seen ++ [op.operation_id])

/-- The per-operation validation loop of
TransactionManager::validate_transaction, short-circuiting on the first
failing operation. -/
def validateEach : List TransactionOperation → Except TransactionError Unit
  | [] => Except.ok ()
  | op :: rest =>
    match validateOperation op with
    | Except.ok () => validateEach rest
    | Except.error e => Except.error e

/-- TransactionManager::validate_transaction from
src/contracts/orchestrator/src/transaction.rs (lines 190-210): reject empty
lists, then duplicate operation ids, then validate each operation. -/
def validateTransaction (ops : List TransactionOperation) : Except TransactionError Unit :=
  if ops.isEmpty then Except.error .InvalidInput
  else
    match dupScan ops [] with
    | Except.error e => Except.error e
    | Except.ok () => validateEach ops

/-- RollbackManager::get_rollback_function_name from
src/contracts/orchestrator/src/rollback.rs (lines 100-108): keep the name if
it already starts with the rollback marker, otherwise prepend it. -/
def getRollbackFunctionName (function_name : String) : String :=
  if function_name.startsWith "rollback_" then function_name
  else "rollback_" ++ function_name

/-- TransactionManager::get_prepare_function_name from
src/contracts/orchestrator/src/transaction.rs (lines 168-176). -/
def getPrepareFunctionName (function_name : String) : String :=
  if function_name.startsWith "prepare_" then function_name
  else "prepare_" ++ function_name

/-- TransactionManager::get_commit_function_name from
src/contracts/orchestrator/src/transaction.rs (lines 179-187). -/
def getCommitFunctionName (function_name : String) : String :=
  if function_name.startsWith "commit_" then function_name
  else "commit_" ++ function_name

/-- The participant invocation made by RollbackManager::rollback_operation:
the derived rollback entry point with the original operation parameters. -/
def rollbackCall (op : TransactionOperation) : Call :=
  { address := op.contract_address
    entry := getRollbackFunctionName op.function_name
    parameters := op.parameters }

/-- The participant invocation made by
TransactionManager::call_prepare_function. -/
def prepareCall (op : TransactionOperation) : Call :=
  { address := op.contract_address
    entry := getPrepareFunctionName op.function_name
    parameters := op.parameters }

/-- The participant invocation made by
TransactionManager::call_commit_function. -/
def commitCall (op : TransactionOperation) : Call :=
  { address := op.contract_address
    entry := getCommitFunctionName op.function_name
    parameters := op.parameters }

/-- Whether an operation is eligible for rollback inside
RollbackManager::rollback_transaction: prepared and not committed. -/
def rollbackEligible (op : TransactionOperation) : Bool :=
  op.prepared && !op.committed

/-- The loop body of RollbackManager::rollback_transaction from
src/contracts/orchestrator/src/rollback.rs (lines 21-49), already applied to
the reversed operation list: for each eligible operation invoke its rollback
entry point through the oracle; a failure sets the rollback_failed flag,
publishes the failure events and continues with the remaining operations. -/
def rollbackLoop (oracle : Call → Bool) (txId : Nat) :
    List TransactionOperation → Bool → World → Bool × World
  | [], failed, w => (failed, w)
  | op :: rest, failed, w =>
    if rollbackEligible op then
      let c := rollbackCall op
      let w1 := { w with calls := w.calls ++ [c] }
      if oracle c then
        rollbackLoop oracle txId rest failed
          { w1 with events := w1.events ++ [Event.operationRolledBack txId op.operation_id] }
      else
        rollbackLoop oracle txId rest true
          { w1 with events := w1.events ++
              [Event.rollbackErr op.operation_id, Event.rollbackFailed txId op.operation_id] }
    else
      rollbackLoop oracle txId rest failed w

/-- RollbackManager::rollback_transaction from
src/contracts/orchestrator/src/rollback.rs (lines 21-49): iterate the
operations in reverse order, roll back every prepared-and-uncommitted one,
and report RollbackFailed at the end when any rollback call failed. The log
is taken by shared reference in the source and is not returned. -/
def rollbackTransaction (oracle : Call → Bool) (w : World) (log : TransactionLog) :
    Except TransactionError Unit × World :=
  let r := rollbackLoop oracle log.transaction_id log.operations.reverse false w
  (if r.1 then Except.error .RollbackFailed else Except.ok (), r.2)

theorem rollbackLoop_spec (oracle : Call → Bool) (txId : Nat) :
    ∀ (ops : List TransactionOperation) (failed : Bool) (w : World),
      (rollbackLoop oracle txId ops failed w).1
        = (failed || ops.any (fun op => rollbackEligible op && !oracle (rollbackCall op)))
      ∧ (rollbackLoop oracle txId ops failed w).2.calls
        = w.calls ++ (ops.filter (fun op => rollbackEligible op)).map rollbackCall
      ∧ (rollbackLoop oracle txId ops failed w).2.store = w.store
  | [], failed, w => by simp [rollbackLoop]
  | op :: rest, failed, w => by
    by_cases he : rollbackEligible op = true
    · by_cases ho : oracle (rollbackCall op) = true
      · have ih := rollbackLoop_spec oracle txId rest failed
          { w with
            calls := w.calls ++ [rollbackCall op]
            events := w.events ++ [Event.operationRolledBack txId op.operation_id] }
        simp only [rollbackLoop, he, ho, if_true, List.any_cons, List.filter_cons,
          Bool.not_true, Bool.and_false, Bool.false_or, List.map_cons] at *
        refine ⟨ih.1, ?_, ih.2.2⟩
        rw [ih.2.1]
        simp
      · have ho' : oracle (rollbackCall op) = false := by
          revert ho; cases oracle (rollbackCall op) <;> simp
        have ih := rollbackLoop_spec oracle txId rest true
          { w with
            calls := w.calls ++ [rollbackCall op]
            events := w.events ++
              [Event.rollbackErr op.operation_id, Event.rollbackFailed txId op.operation_id] }
        simp only [rollbackLoop, he, ho', if_true, Bool.false_eq_true, if_false,
          List.any_cons, List.filter_cons, Bool.not_false, Bool.and_true,
          Bool.true_or, Bool.or_true, List.map_cons] at *
        refine ⟨by rw [ih.1], ?_, ih.2.2⟩
        rw [ih.2.1]
        simp
    · have he' : rollbackEligible op = false := by
        revert he; cases rollbackEligible op <;> simp
      have ih := rollbackLoop_spec oracle txId rest failed w
      simp only [rollbackLoop, he', Bool.false_eq_true, if_false, List.any_cons,
        List.filter_cons, Bool.false_and, Bool.false_or, List.map_cons] at *
      exact ⟨ih.1, ih.2.1, ih.2.2⟩

/-- When no operation of the list is rollback-eligible the loop does
nothing at all: flag, store, events and calls are all returned unchanged. -/
theorem rollbackLoop_no_eligible (oracle : Call → Bool) (txId : Nat) :
    ∀ (ops : List TransactionOperation) (failed : Bool) (w : World),
      (∀ op ∈ ops, rollbackEligible op = false) →
      rollbackLoop oracle txId ops failed w = (failed, w)
  | [], failed, w, _ => by simp [rollbackLoop]
  | op :: rest, failed, w, h => by
    have he := h op (by simp)
    have ih := rollbackLoop_no_eligible oracle txId rest failed w
      (fun o ho => h o (by simp [ho]))
    simp [rollbackLoop, he, ih]

/-- C5: rollback_transaction invokes the rollback entry point (with the
original operation parameters) exactly for the prepared-and-uncommitted
operations, in reverse list order; a failed rollback call does not stop the
loop, and the result is Ok when every such call succeeded and RollbackFailed
otherwise. -/
theorem rollback_transaction_calls_and_result (oracle : Call → Bool) (w : World)
    (log : TransactionLog) :
    (rollbackTransaction oracle w log).2.calls
      = w.calls ++ ((log.operations.reverse.filter
          (fun op => op.prepared && !op.committed)).map rollbackCall)
    ∧ ((rollbackTransaction oracle w log).1 = Except.ok ()
        ↔ ∀ op ∈ log.operations, (op.prepared && !op.committed) = true →
            oracle (rollbackCall op) = true)
    ∧ ((rollbackTransaction oracle w log).1 = Except.ok ()
        ∨ (rollbackTransaction oracle w log).1 = Except.error TransactionError.RollbackFailed) := by
  have h := rollbackLoop_spec oracle log.transaction_id log.operations.reverse false w
  unfold rollbackTransaction
  constructor
  · simpa [rollbackEligible] using h.2.1
  constructor
  · have h1 := h.1
    rw [Bool.false_or] at h1
    rcases hfail : (rollbackLoop oracle log.transaction_id log.operations.reverse false w).1
    · rw [hfail] at h1
      constructor
      · intro _ op hop hel
        by_contra hor
        have hor' : oracle (rollbackCall op) = false := by
          revert hor; cases oracle (rollbackCall op) <;> simp
        have hany : log.operations.reverse.any
            (fun op => rollbackEligible op && !oracle (rollbackCall op)) = true := by
          rw [List.any_eq_true]
          exact ⟨op, List.mem_reverse.mpr hop, by simp [rollbackEligible, hel, hor']⟩
        rw [hany] at h1
        cases h1
      · intro _
        simp [hfail]
    · rw [hfail] at h1
      constructor
      · intro hcontra
        simp [hfail] at hcontra
      · intro hall
        have hany := h1.symm
        rw [List.any_eq_true] at hany
        rcases hany with ⟨op, hmem, hcond⟩
        have hmem' := List.mem_reverse.mp hmem
        simp only [Bool.and_eq_true, Bool.not_eq_true'] at hcond
        have := hall op hmem' (by simpa [rollbackEligible] using hcond.1)
        rw [this] at hcond
        simp at hcond
  · rcases hfail : (rollbackLoop oracle log.transaction_id log.operations.reverse false w).1 <;>
      simp [hfail]

/-- C7: on a log in which every operation is unprepared or already
committed, rollback_transaction makes no participant call, publishes
nothing, leaves the world unchanged and returns Ok. -/
theorem rollback_transaction_idempotent (oracle : Call → Bool) (w : World)
    (log : TransactionLog)
    (h : ∀ op ∈ log.operations, op.prepared = false ∨ op.committed = true) :
    rollbackTransaction oracle w log = (Except.ok (), w) := by
  have hnone : ∀ op ∈ log.operations.reverse, rollbackEligible op = false := by
    intro op hop
    rcases h op (List.mem_reverse.mp hop) with h1 | h1 <;>
      simp [rollbackEligible, h1]
  unfold rollbackTransaction
  rw [rollbackLoop_no_eligible oracle log.transaction_id log.operations.reverse false w hnone]
  simp

/-- Closed witness for the C7 theorem on a concrete two-operation log
(one never prepared, one already committed). -/
theorem rollback_transaction_idempotent_witness :
    rollbackTransaction (fun _ => false) ⟨[], [], []⟩
      { transaction_id := 4
        initiator := 9
        phase := TransactionPhase.RolledBack
        operations :=
          [{ operation_id := 1, contract_type := 0, contract_address := some 21
             function_name := "store_a", parameters := ["x"], locked_resources := []
             prepared := false, committed := false, error := none },
           { operation_id := 2, contract_type := 0, contract_address := some 22
             function_name := "store_b", parameters := ["y"], locked_resources := []
             prepared := true, committed := true, error := none }]
        created_at := 0
        updated_at := 0
        timeout_seconds := 60
        error := none } = (Except.ok (), ⟨[], [], []⟩) := by
  apply rollback_transaction_idempotent
  intro op hop
  simp only [List.mem_cons, List.mem_singleton] at hop
  rcases hop with h | h | h
  · left; rw [h]
  · right; rw [h]
  · cases h

/-- C10: rollback_transaction never writes the transaction log back to
storage: for every oracle, world and log, the store component of the world
after the call equals the store before (the log itself is taken by shared
reference in the source and cannot be mutated; only calls and events are
appended). -/
theorem rollback_transaction_frame (oracle : Call → Bool) (w : World)
    (log : TransactionLog) :
    (rollbackTransaction oracle w log).2.store = w.store := by
  have h := rollbackLoop_spec oracle log.transaction_id log.operations.reverse false w
  unfold rollbackTransaction
  exact h.2.2

/-- C2: evaluation of the code at the transition the lifecycle starts with:
validate_phase_transition rejects Initiated to Preparing with InvalidPhase,
although the spec lists it as the first valid transition of the state
machine (and prepare_phase performs exactly this transition). -/
theorem validate_phase_transition_initiated_preparing :
    validatePhaseTransition TransactionPhase.Initiated TransactionPhase.Preparing
      = Except.error TransactionError.InvalidPhase := rfl

/-- C8: for all u64 values, is_transaction_expired_check agrees with the
exact unbounded comparison now greater than created_at plus
timeout_seconds; the saturating addition never changes the verdict because
the current timestamp is itself bounded by u64::MAX. -/
theorem is_transaction_expired_check_exact (created_at timeout_seconds current_timestamp : Nat)
    (hc : created_at < 2 ^ 64) (ht : timeout_seconds < 2 ^ 64)
    (hn : current_timestamp < 2 ^ 64) :
    (isTransactionExpiredCheck created_at timeout_seconds current_timestamp = true
      ↔ current_timestamp > created_at + timeout_seconds) := by
  unfold isTransactionExpiredCheck saturatingAdd U64MAX
  simp only [gt_iff_lt, decide_eq_true_eq]
  omega

/-- Closed witness for the C8 theorem at an input whose exact sum overflows
u64: created_at near the maximum plus a small timeout. -/
theorem is_transaction_expired_check_exact_witness :
    (2 ^ 64 - 1 : Nat) < 2 ^ 64 ∧
    (isTransactionExpiredCheck (2 ^ 64 - 1) 5 (2 ^ 64 - 1) = true
      ↔ (2 ^ 64 - 1 : Nat) > (2 ^ 64 - 1) + 5) :=
  ⟨by norm_num,
   is_transaction_expired_check_exact (2 ^ 64 - 1) 5 (2 ^ 64 - 1)
     (by norm_num) (by norm_num) (by norm_num)⟩

theorem dupScan_ok_iff :
    ∀ (ops : List TransactionOperation) (seen : List Nat),
      dupScan ops seen = Except.ok ()
        ↔ (ops.map (fun op => op.operation_id)).Nodup
          ∧ ∀ i ∈ ops.map (fun op => op.operation_id), i ∉ seen
  | [], seen => by simp [dupScan]
  | op :: rest, seen => by
    by_cases hmem : op.operation_id ∈ seen
    · simp only [dupScan, if_pos hmem, List.map_cons, List.nodup_cons, List.mem_cons]
      constructor
      · intro hcontra; cases hcontra
      · rintro ⟨-, hall⟩
        exact absurd hmem (hall op.operation_id (Or.inl rfl))
    · have ih := dupScan_ok_iff rest (seen ++ [op.operation_id])
      simp only [dupScan, if_neg hmem, List.map_cons, List.nodup_cons, List.mem_cons]
      rw [ih]
      constructor
      · rintro ⟨hnd, hall⟩
        refine ⟨⟨?_, hnd⟩, ?_⟩
        · intro hin
          have := hall op.operation_id hin
          simp at this
        · rintro i (rfl | hi)
          · exact hmem
          · intro hseen
            exact (hall i hi) (by simp [hseen])
      · rintro ⟨⟨hnotin, hnd⟩, hall⟩
        refine ⟨hnd, ?_⟩
        intro i hi
        simp only [List.mem_append, List.mem_singleton]
        rintro (hseen | rfl)
        · exact (hall i (Or.inr hi)) hseen
        · exact hnotin hi

theorem validateOperation_ok_iff (op : TransactionOperation) :
    validateOperation op = Except.ok ()
      ↔ op.contract_address ≠ none ∧ op.function_name ≠ "" ∧ op.operation_id ≠ 0 := by
  unfold validateOperation
  split_ifs with h1 h2 h3 <;>
    simp_all [Option.isNone_iff_eq_none]

theorem validateEach_ok_iff :
    ∀ (ops : List TransactionOperation),
      validateEach ops = Except.ok () ↔ ∀ op ∈ ops, validateOperation op = Except.ok ()
  | [] => by simp [validateEach]
  | op :: rest => by
    have ih := validateEach_ok_iff rest
    cases hv : validateOperation op with
    | error e => simp [validateEach, hv, List.forall_mem_cons]
    | ok u =>
      cases u
      simp [validateEach, hv, List.forall_mem_cons, ih]

/-- A concrete operation whose function name has 65 characters and which is
otherwise entirely well-formed. -/
def overlongNameOp : TransactionOperation :=
  { operation_id := 1
    contract_type := 0
    contract_address := some 5
    function_name := "aaaaaaaaaaaaaaaaaaaaaaaaaaaaaaaaaaaaaaaaaaaaaaaaaaaaaaaaaaaaaaaaa"
    parameters := []
    locked_resources := []
    prepared := false
    committed := false
    error := none }

/-- C6 counterexample: validate_transaction accepts an operation whose
function name is 65 characters long, although the claim says any function
name of length outside 1..64 is rejected with InvalidInput. -/
theorem validate_transaction_long_name_accepted :
    validateTransaction [overlongNameOp] = Except.ok ()
      ∧ overlongNameOp.function_name.length = 65 := ⟨rfl, rfl⟩

/-- C6 amended: validate_transaction returns Ok exactly when the list is
non-empty, the operation ids are pairwise distinct, and every operation has
a present contract address, a non-empty function name and a non-zero id;
it returns InvalidInput otherwise. The 64-character name bound, the
10-parameter bound and the locked-resource length bounds are checked by the
separate validate_transaction_operation helper, which validate_transaction
does not call. -/
theorem validate_transaction_ok_iff (ops : List TransactionOperation) :
    validateTransaction ops = Except.ok ()
      ↔ ops ≠ []
        ∧ (ops.map (fun op => op.operation_id)).Nodup
        ∧ ∀ op ∈ ops,
            op.contract_address ≠ none ∧ op.function_name ≠ "" ∧ op.operation_id ≠ 0 := by
  unfold validateTransaction
  by_cases hem : ops.isEmpty
  · rw [if_pos hem]
    rw [List.isEmpty_iff] at hem
    simp [hem]
  · rw [if_neg hem]
    rw [List.isEmpty_iff] at hem
    cases hd : dupScan ops [] with
    | error e =>
      constructor
      · intro hcontra
        simp at hcontra
      · rintro ⟨-, hnd, -⟩
        have hok : dupScan ops [] = Except.ok () := by
          rw [dupScan_ok_iff]
          exact ⟨hnd, by simp⟩
        rw [hd] at hok
        cases hok
    | ok u =>
      cases u
      have hnd : (ops.map (fun op => op.operation_id)).Nodup :=
        ((dupScan_ok_iff ops []).mp hd).1
      show validateEach ops = Except.ok () ↔ _
      rw [validateEach_ok_iff]
      simp only [hem, ne_eq, not_false_eq_true, true_and, hnd]
      constructor
      · intro hall op hop
        exact (validateOperation_ok_iff op).mp (hall op hop)
      · intro hall op hop
        exact (validateOperation_ok_iff op).mpr (hall op hop)

/-- The operation loop of TransactionManager::prepare_phase from
src/contracts/orchestrator/src/transaction.rs (lines 27-49): each operation
is cloned, its prepare entry point is invoked, and on success the clone
(with prepared set) is pushed onto the prepared_operations accumulator; on
the first failure the error is recorded on the clone only and the loop
aborts with ContractCallFailed, discarding the accumulator. -/
def prepareLoop (oracle : Call → Bool) (txId : Nat) :
    List TransactionOperation → World → Except TransactionError (List TransactionOperation) × World
  | [], w => (Except.ok [], w)
  | op :: rest, w =>
    let c := prepareCall op
    let w1 := { w with calls := w.calls ++ [c] }
    if oracle c then
      let w2 := { w1 with events := w1.events ++ [Event.operationPrepared txId op.operation_id] }
      match prepareLoop oracle txId rest w2 with
      | (Except.ok ops, w3) => (Except.ok ({ op with prepared := true } :: ops), w3)
      | (Except.error e, w3) => (Except.error e, w3)
    else
      (Except.error .ContractCallFailed,
       { w1 with events := w1.events ++
           [Event.prepErr op.operation_id, Event.operationFailed txId op.operation_id] })

/-- TransactionManager::prepare_phase from
src/contracts/orchestrator/src/transaction.rs (lines 21-61): set the phase
to Preparing and persist, run the prepare loop, and only on full success
replace the operation list with the prepared clones, advance the phase to
Prepared, stamp updated_at and persist again. On failure the in-memory log
still holds the original operations (the prepared clones and the recorded
error were local to the loop). -/
def preparePhase (oracle : Call → Bool) (now : Nat) (w : World) (log : TransactionLog) :
    Except TransactionError Unit × World × TransactionLog :=
  let log1 := { log with phase := TransactionPhase.Preparing }
  let w1 := setTransactionLog w log1
  match prepareLoop oracle log1.transaction_id log1.operations w1 with
  | (Except.error e, w2) => (Except.error e, w2, log1)
  | (Except.ok ops, w2) =>
    let log2 := { log1 with
      operations := ops
      phase := TransactionPhase.Prepared
      updated_at := now }
    let w3 := setTransactionLog w2 log2
    (Except.ok (),
     { w3 with events := w3.events ++ [Event.transactionPrepared log2.transaction_id] },
     log2)

/-- The operation loop of TransactionManager::commit_phase from
src/contracts/orchestrator/src/transaction.rs (lines 72-97): abort with
InvalidPhase on the first unprepared operation, otherwise invoke the commit
entry point, accumulating committed clones, aborting with
ContractCallFailed on the first failed call. -/
def commitLoop (oracle : Call → Bool) (txId : Nat) :
    List TransactionOperation → World → Except TransactionError (List TransactionOperation) × World
  | [], w => (Except.ok [], w)
  | op :: rest, w =>
    if !op.prepared then (Except.error .InvalidPhase, w)
    else
      let c := commitCall op
      let w1 := { w with calls := w.calls ++ [c] }
      if oracle c then
        let w2 := { w1 with events := w1.events ++ [Event.operationCommitted txId op.operation_id] }
        match commitLoop oracle txId rest w2 with
        | (Except.ok ops, w3) => (Except.ok ({ op with committed := true } :: ops), w3)
        | (Except.error e, w3) => (Except.error e, w3)
      else
        (Except.error .ContractCallFailed,
         { w1 with events := w1.events ++
             [Event.commitErr op.operation_id, Event.operationFailed txId op.operation_id] })

/-- TransactionManager::commit_phase from
src/contracts/orchestrator/src/transaction.rs (lines 64-105): require the
Prepared phase, run the commit loop, and only on full success replace the
operation list with the committed clones, stamp updated_at and persist. -/
def commitPhase (oracle : Call → Bool) (now : Nat) (w : World) (log : TransactionLog) :
    Except TransactionError Unit × World × TransactionLog :=
  if log.phase ≠ TransactionPhase.Prepared then (Except.error .InvalidPhase, w, log)
  else
    match commitLoop oracle log.transaction_id log.operations w with
    | (Except.error e, w2) => (Except.error e, w2, log)
    | (Except.ok ops, w2) =>
      let log2 := { log with operations := ops, updated_at := now }
      (Except.ok (), setTransactionLog w2 log2, log2)

theorem commitLoop_store (oracle : Call → Bool) (txId : Nat) :
    ∀ (ops : List TransactionOperation) (w : World),
      (commitLoop oracle txId ops w).2.store = w.store
  | [], w => by simp [commitLoop]
  | op :: rest, w => by
    unfold commitLoop
    by_cases hp : op.prepared
    · simp only [hp, Bool.not_true, Bool.false_eq_true, if_false]
      by_cases ho : oracle (commitCall op) = true
      · have ih := commitLoop_store oracle txId rest
          { w with
            calls := w.calls ++ [commitCall op]
            events := w.events ++ [Event.operationCommitted txId op.operation_id] }
        simp only [ho, if_true]
        rcases hl : commitLoop oracle txId rest
          { w with
            calls := w.calls ++ [commitCall op]
            events := w.events ++ [Event.operationCommitted txId op.operation_id] } with ⟨r, w3⟩
        rw [hl] at ih
        cases r <;> simpa using ih
      · have ho' : oracle (commitCall op) = false := by
          revert ho; cases oracle (commitCall op) <;> simp
        simp [ho']
    · have hp' : op.prepared = false := by
        revert hp; cases op.prepared <;> simp
      simp [hp']

/-- C9: whenever commit_phase returns an error, nothing was persisted: the
transaction-log store after the call is the store before it, and the
in-memory log is returned unchanged, even though commit calls may already
have been invoked for earlier operations. -/
theorem commit_phase_error_frame (oracle : Call → Bool) (now : Nat) (w : World)
    (log : TransactionLog) (e : TransactionError) (w2 : World) (log2 : TransactionLog)
    (h : commitPhase oracle now w log = (Except.error e, w2, log2)) :
    w2.store = w.store ∧ log2 = log := by
  unfold commitPhase at h
  by_cases hph : log.phase = TransactionPhase.Prepared
  · simp only [hph, ne_eq, not_true_eq_false, if_false] at h
    have hst := commitLoop_store oracle log.transaction_id log.operations w
    rcases hl : commitLoop oracle log.transaction_id log.operations w with ⟨r, w3⟩
    rw [hl] at h hst
    cases r with
    | error e0 =>
      simp only at h
      cases h with
      | refl => exact ⟨hst, rfl⟩
    | ok ops =>
      simp only at h
      cases h
  · simp only [ne_eq, hph, not_false_eq_true, if_true] at h
    cases h with
    | refl => exact ⟨rfl, rfl⟩

/-- Closed witness for the C9 theorem: a log still in the Initiated phase is
rejected with InvalidPhase and both store and log are untouched. -/
theorem commit_phase_error_frame_witness :
    (⟨[(3, { transaction_id := 3, initiator := 1, phase := TransactionPhase.Initiated
             operations := [], created_at := 0, updated_at := 0
             timeout_seconds := 60, error := none })], [], []⟩ : World).store
      = (⟨[(3, { transaction_id := 3, initiator := 1, phase := TransactionPhase.Initiated
                 operations := [], created_at := 0, updated_at := 0
                 timeout_seconds := 60, error := none })], [], []⟩ : World).store
    ∧ ({ transaction_id := 3, initiator := 1, phase := TransactionPhase.Initiated
         operations := [], created_at := 0, updated_at := 0
         timeout_seconds := 60, error := none } : TransactionLog)
      = { transaction_id := 3, initiator := 1, phase := TransactionPhase.Initiated
          operations := [], created_at := 0, updated_at := 0
          timeout_seconds := 60, error := none } :=
  commit_phase_error_frame (fun _ => true) 7
    ⟨[(3, { transaction_id := 3, initiator := 1, phase := TransactionPhase.Initiated
            operations := [], created_at := 0, updated_at := 0
            timeout_seconds := 60, error := none })], [], []⟩
    { transaction_id := 3, initiator := 1, phase := TransactionPhase.Initiated
      operations := [], created_at := 0, updated_at := 0
      timeout_seconds := 60, error := none }
    TransactionError.InvalidPhase _ _ rfl

/-- First operation of the C1 scenario; its prepare call succeeds. -/
def opA : TransactionOperation :=
  { operation_id := 1, contract_type := 0, contract_address := some 11
    function_name := "f1", parameters := ["p1"], locked_resources := []
    prepared := false, committed := false, error := none }

/-- Second operation of the C1 scenario; its prepare call fails. -/
def opB : TransactionOperation :=
  { operation_id := 2, contract_type := 0, contract_address := some 12
    function_name := "f2", parameters := ["p2"], locked_resources := []
    prepared := false, committed := false, error := none }

/-- Third operation of the C1 scenario; never reached. -/
def opC : TransactionOperation :=
  { operation_id := 3, contract_type := 0, contract_address := some 13
    function_name := "f3", parameters := ["p3"], locked_resources := []
    prepared := false, committed := false, error := none }

/-- Three-operation log for the C1 scenario. -/
def logC1 : TransactionLog :=
  { transaction_id := 7, initiator := 2, phase := TransactionPhase.Initiated
    operations := [opA, opB, opC], created_at := 10, updated_at := 10
    timeout_seconds := 60, error := none }

/-- Participant behaviour for the C1 scenario: every call succeeds except
the prepare call of the second operation. -/
def oracleFailB : Call → Bool := fun c => decide (c ≠ prepareCall opB)

/-- C1: evaluation of prepare_phase at a log whose second operation fails
prepare. The call returns ContractCallFailed and the third operation is
never attempted, as the claim says; but contrary to the claim the resulting
log keeps all three operations exactly as they were: operation 1 does not
end with prepared set and operation 2 does not have its error recorded,
because prepare_phase mutated only local clones that are discarded on the
failure path (the persisted record likewise holds the original
operations, with only the phase advanced to Preparing). -/
theorem prepare_phase_failure_discards_progress :
    preparePhase oracleFailB 99 ⟨[], [], []⟩ logC1
      = (Except.error TransactionError.ContractCallFailed,
         ⟨[(7, { logC1 with phase := TransactionPhase.Preparing })],
          [Event.operationPrepared 7 1, Event.prepErr 2, Event.operationFailed 7 2],
          [prepareCall opA, prepareCall opB]⟩,
         { logC1 with phase := TransactionPhase.Preparing })
    ∧ (preparePhase oracleFailB 99 ⟨[], [], []⟩ logC1).2.2.operations.map
        (fun op => op.prepared) = [false, false, false]
    ∧ (preparePhase oracleFailB 99 ⟨[], [], []⟩ logC1).2.2.operations.map
        (fun op => op.error) = [none, none, none] := by
  refine ⟨?_, ?_, ?_⟩ <;> rfl

/-- A directed dependency edge (from transaction, to transaction, contested
resource), as stored by DependencyGraph::add_dependency in
src/contracts/orchestrator/src/deadlock.rs. -/
abbrev DepEdge := Nat × Nat × String

/-- DependencyGraph::get_dependencies from
src/contracts/orchestrator/src/deadlock.rs (lines 329-339): all (target,
resource) pairs of edges leaving the given transaction, in insertion
order. -/
def getDependencies (edges : List DepEdge) (t : Nat) : List (Nat × String) :=
  (edges.filter (fun e => e.1 = t)).map (fun e => (e.2.1, e.2.2))

/-- DependencyGraph::get_all_transactions from
src/contracts/orchestrator/src/deadlock.rs (lines 341-354): every
transaction occurring as an edge endpoint, first occurrence first, without
duplicates. -/
def getAllTransactions (edges : List DepEdge) : List Nat :=
  edges.foldl
    (fun acc e =>
      let acc1 := if e.1 ∈ acc then acc else acc ++ [e.1]
      if e.2.1 ∈ acc1 then acc1 else acc1 ++ [e.2.1])
    []

/-- The inner grouping step of DeadlockDetector::add_existing_dependencies
(lines 63-86): append the resource to the entry of its holding transaction,
or create a new entry at the end. -/
def addResourceToTx : List (Nat × List String) → Nat → String → List (Nat × List String)
  | [], tx, r => [(tx, [r])]
  | (t, rs) :: rest, tx, r =>
    if t = tx then (t, rs ++ [r]) :: rest
    else (t, rs) :: addResourceToTx rest tx r

/-- Group the lock table by holding transaction, as the first loop of
DeadlockDetector::add_existing_dependencies does. -/
def groupLocks (locks : List (String × Nat)) : List (Nat × List String) :=
  locks.foldl (fun acc l => addResourceToTx acc l.2 l.1) []

/-- The pairwise sharing loop of DeadlockDetector::add_existing_dependencies
(lines 88-106): for every ordered pair of distinct grouped transactions,
every shared resource adds one edge in each direction. -/
def sharedEdges : List (Nat × List String) → List DepEdge
  | [] => []
  | (t1, rs1) :: rest =>
    (rest.foldl
      (fun acc e2 =>
        acc ++ rs1.foldl
          (fun acc2 r1 =>
            acc2 ++ e2.2.foldl
              (fun acc3 r2 =>
                if r1 = r2 then acc3 ++ [(t1, e2.1, r1), (e2.1, t1, r2)] else acc3)
              [])
          [])
      [])
    ++ sharedEdges rest

/-- DeadlockDetector::add_existing_dependencies from
src/contracts/orchestrator/src/deadlock.rs (lines 59-107). -/
def addExistingDependencies (locks : List (String × Nat)) : List DepEdge :=
  sharedEdges (groupLocks locks)

/-- DeadlockDetector::build_dependency_graph from
src/contracts/orchestrator/src/deadlock.rs (lines 29-56): for every resource
the candidate transaction wants, an edge to each current holder other than
the candidate itself, followed by the bidirectional sharing edges among the
existing lock holders. -/
def buildDependencyGraph (txId : Nat) (ops : List TransactionOperation)
    (locks : List (String × Nat)) : List DepEdge :=
  (ops.foldl
    (fun acc op =>
      op.locked_resources.foldl
        (fun acc1 r =>
          locks.foldl
            (fun acc2 l =>
              if l.1 = r ∧ l.2 ≠ txId then acc2 ++ [(txId, l.2, r)] else acc2)
            acc1)
        acc)
    [])
  ++ addExistingDependencies locks

/-- The dependency loop inside DeadlockDetector::dfs_has_cycle (lines
142-151): recurse (through the next callback, instantiated with the search
itself) into unvisited targets, report a cycle when a target is on the
recursion stack. -/
def dfsScanDeps (next : Nat → List Nat → List Nat → Bool × List Nat × List Nat) :
    List (Nat × String) → List Nat → List Nat → Bool × List Nat × List Nat
  | [], visited, stack => (false, visited, stack)
  | d :: rest, visited, stack =>
    if d.1 ∉ visited then
      match next d.1 visited stack with
      | (true, v2, s2) => (true, v2, s2)
      | (false, v2, s2) => dfsScanDeps next rest v2 s2
    else if d.1 ∈ stack then (true, visited, stack)
    else dfsScanDeps next rest visited stack

/-- DeadlockDetector::dfs_has_cycle from
src/contracts/orchestrator/src/deadlock.rs (lines 129-155): mark the node
visited and on the recursion stack, scan its dependencies, and pop the
stack when no cycle was found. The fuel argument bounds the recursion depth
and never runs out when it exceeds the number of graph nodes. -/
def dfsHasCycle (edges : List DepEdge) :
    Nat → Nat → List Nat → List Nat → Bool × List Nat × List Nat
  | 0, _, visited, stack => (false, visited, stack)
  | fuel + 1, t, visited, stack =>
    match dfsScanDeps (fun u v s => dfsHasCycle edges fuel u v s)
        (getDependencies edges t) (visited ++ [t]) (stack ++ [t]) with
    | (true, v2, s2) => (true, v2, s2)
    | (false, v2, s2) => (false, v2, s2.dropLast)

/-- The outer loop of DeadlockDetector::has_cycles from
src/contracts/orchestrator/src/deadlock.rs (lines 110-126), threading the
visited list (and the recursion stack, which every failed search restores)
across start nodes. -/
def hasCyclesLoop (edges : List DepEdge) (fuel : Nat) :
    List Nat → List Nat → List Nat → Bool
  | [], _, _ => false
  | t :: rest, visited, stack =>
    if t ∉ visited then
      match dfsHasCycle edges fuel t visited stack with
      | (true, _, _) => true
      | (false, v2, s2) => hasCyclesLoop edges fuel rest v2 s2
    else hasCyclesLoop edges fuel rest visited stack

/-- DeadlockDetector::has_cycles: depth-first search from every
transaction of the graph. -/
def hasCycles (edges : List DepEdge) : Bool :=
  hasCyclesLoop edges ((getAllTransactions edges).length + 1) (getAllTransactions edges) [] []

/-- DeadlockDetector::would_cause_deadlock from
src/contracts/orchestrator/src/deadlock.rs (lines 20-26). The lock table
(resource, holder) list is the RESOURCE_LOCKS storage entry, passed
explicitly. -/
def wouldCauseDeadlock (txId : Nat) (ops : List TransactionOperation)
    (locks : List (String × Nat)) : Bool :=
  hasCycles (buildDependencyGraph txId ops locks)

/-- The dependency loop inside DeadlockDetector::find_cycles_from_node
(lines 221-234): a dependency already on the path records the sub-path from
its first position as a cycle; an unvisited dependency is explored
recursively through the next callback; anything else is skipped. -/
def findCyclesScanDeps
    (next : Nat → List Nat → List Nat → List (List Nat) →
      List Nat × List Nat × List (List Nat)) :
    List (Nat × String) → List Nat → List Nat → List (List Nat) →
    List Nat × List Nat × List (List Nat)
  | [], visited, path, cycles => (visited, path, cycles)
  | d :: rest, visited, path, cycles =>
    if d.1 ∈ path then
      findCyclesScanDeps next rest visited path
        (cycles ++ [path.drop (path.indexOf d.1)])
    else if d.1 ∉ visited then
      match next d.1 visited path cycles with
      | (v2, p2, c2) => findCyclesScanDeps next rest v2 p2 c2
    else findCyclesScanDeps next rest visited path cycles

/-- DeadlockDetector::find_cycles_from_node from
src/contracts/orchestrator/src/deadlock.rs (lines 208-237): push the node on
the path, record a cycle for every dependency already on the path, recurse
into unvisited dependencies, and pop the path before returning. -/
def findCyclesFromNode (edges : List DepEdge) :
    Nat → Nat → List Nat → List Nat → List (List Nat) →
    List Nat × List Nat × List (List Nat)
  | 0, _, visited, path, cycles => (visited, path, cycles)
  | fuel + 1, t, visited, path, cycles =>
    match findCyclesScanDeps (fun u v p c => findCyclesFromNode edges fuel u v p c)
        (getDependencies edges t) (visited ++ [t]) (path ++ [t]) cycles with
    | (v2, p2, c2) => (v2, p2.dropLast, c2)

/-- The outer loop of DeadlockDetector::find_cycles from
src/contracts/orchestrator/src/deadlock.rs (lines 191-205). -/
def findCyclesLoop (edges : List DepEdge) (fuel : Nat) :
    List Nat → List Nat → List Nat → List (List Nat) → List (List Nat)
  | [], _, _, cycles => cycles
  | t :: rest, visited, path, cycles =>
    if t ∉ visited then
      match findCyclesFromNode edges fuel t visited path cycles with
      | (v2, p2, c2) => findCyclesLoop edges fuel rest v2 p2 c2
    else findCyclesLoop edges fuel rest visited path cycles

/-- DeadlockDetector::find_cycles: enumerate the cycles reachable from
every transaction of the graph. -/
def findCycles (edges : List DepEdge) : List (List Nat) :=
  findCyclesLoop edges ((getAllTransactions edges).length + 1) (getAllTransactions edges) [] [] []

/-- The victim choice of DeadlockDetector::resolve_deadlock: the minimum of
the cycle members (the source unwraps, so the empty cycle, which
find_cycles never produces, is given the default 0). -/
def cycleMin : List Nat → Nat
  | [] => 0
  | t :: rest => rest.foldl Nat.min t

/-- DeadlockDetector::get_conflicting_resources from
src/contracts/orchestrator/src/deadlock.rs (lines 261-278): the deduplicated
resources held by any transaction of the cycle, in lock-table order. -/
def getConflictingResources (locks : List (String × Nat)) (cycle : List Nat) : List String :=
  locks.foldl
    (fun acc l =>
      if l.2 ∈ cycle then (if l.1 ∈ acc then acc else acc ++ [l.1]) else acc)
    []

/-- DeadlockDetector::resolve_deadlock from
src/contracts/orchestrator/src/deadlock.rs (lines 240-258): the DeadlockInfo
built for one cycle (the deadlock-detected event it publishes is not
modelled; the detector performs no other effect). -/
def resolveDeadlock (locks : List (String × Nat)) (now : Nat) (cycle : List Nat) : DeadlockInfo :=
  { transaction_id := cycleMin cycle
    conflicting_transactions := cycle
    conflicting_resources := getConflictingResources locks cycle
    detected_at := now }

/-- DeadlockDetector::detect_and_resolve_deadlocks from
src/contracts/orchestrator/src/deadlock.rs (lines 158-181): empty lock table
short-circuits, otherwise every found cycle of the sharing graph is
resolved into one DeadlockInfo. -/
def detectAndResolveDeadlocks (locks : List (String × Nat)) (now : Nat) :
    Except TransactionError (List DeadlockInfo) :=
  if locks.isEmpty then Except.ok []
  else
    Except.ok ((findCycles (addExistingDependencies locks)).map (resolveDeadlock locks now))

/-- A candidate operation that wants (locks) exactly the one given
resource. -/
def wantOp (r : String) : TransactionOperation :=
  { operation_id := 1, contract_type := 0, contract_address := some 11
    function_name := "f", parameters := [], locked_resources := [r]
    prepared := false, committed := false, error := none }

/-- C4 counterexample: transaction 1 holds r1, transaction 2 holds r2, and
transaction 1 asks for an operation set wanting r2 — the classic opposing
wants. would_cause_deadlock returns false, not true as the claim says: the
wants of other transactions are not represented in the lock table, so the
graph has the single edge 1 to 2 and no cycle. -/
theorem would_cause_deadlock_classic_counterexample :
    wouldCauseDeadlock 1 [wantOp "r2"] [("r1", 1), ("r2", 2)] = false := rfl

/-- C4 amended: for any two distinct transactions holding distinct
resources, a candidate operation set for the first transaction wanting the
resource held by the second does not trigger would_cause_deadlock: all
candidate edges point away from the candidate and the two holders share no
lock-table resource, so the dependency graph is acyclic. -/
theorem would_cause_deadlock_opposing_want_false (t1 t2 : Nat) (r1 r2 : String)
    (hts : t1 ≠ t2) (hrs : r1 ≠ r2) :
    wouldCauseDeadlock t1 [wantOp r2] [(r1, t1), (r2, t2)] = false := by
  have hts' : t2 ≠ t1 := hts.symm
  have hrs' : r2 ≠ r1 := hrs.symm
  simp [wouldCauseDeadlock, buildDependencyGraph, wantOp, addExistingDependencies,
    groupLocks, addResourceToTx, sharedEdges, hasCycles, getAllTransactions,
    hasCyclesLoop, dfsHasCycle, dfsScanDeps, getDependencies,
    hts, hts', hrs, hrs']

/-- Closed witness for the amended C4 theorem at transactions 1 and 2 with
resources r1 and r2. -/
theorem would_cause_deadlock_opposing_want_false_witness :
    (1 : Nat) ≠ 2 ∧ wouldCauseDeadlock 1 [wantOp "r2"] [("r1", 1), ("r2", 2)] = false :=
  ⟨by decide,
   would_cause_deadlock_opposing_want_false 1 2 "r1" "r2" (by decide) (by decide)⟩

/-- The lock table of the three-transaction cycle scenario: transactions 1
and 2 share ra, 2 and 3 share rb, 3 and 1 share rc. -/
def cycleLocks : List (String × Nat) :=
  [("ra", 1), ("ra", 2), ("rb", 2), ("rb", 3), ("rc", 3), ("rc", 1)]

/-- C3 counterexample: on the three-transaction cycle lock table,
detect_and_resolve_deadlocks returns three DeadlockInfos — the two-cycles
1-2 and 2-3 induced by the bidirectional sharing edges in addition to the
full cycle 1-2-3 — not exactly one as the claim says. -/
theorem detect_deadlocks_three_cycle_counterexample :
    detectAndResolveDeadlocks cycleLocks 5
      = Except.ok
        [{ transaction_id := 1, conflicting_transactions := [1, 2]
           conflicting_resources := ["ra", "rb", "rc"], detected_at := 5 },
         { transaction_id := 1, conflicting_transactions := [1, 2, 3]
           conflicting_resources := ["ra", "rb", "rc"], detected_at := 5 },
         { transaction_id := 2, conflicting_transactions := [2, 3]
           conflicting_resources := ["ra", "rb", "rc"], detected_at := 5 }]
    ∧ ([{ transaction_id := 1, conflicting_transactions := [1, 2]
          conflicting_resources := ["ra", "rb", "rc"], detected_at := 5 },
        { transaction_id := 1, conflicting_transactions := [1, 2, 3]
          conflicting_resources := ["ra", "rb", "rc"], detected_at := 5 },
        { transaction_id := 2, conflicting_transactions := [2, 3]
          conflicting_resources := ["ra", "rb", "rc"], detected_at := 5 }] :
        List DeadlockInfo).length = 3 := ⟨rfl, rfl⟩

/-- C3 amended: for every detection timestamp, the three-transaction cycle
lock table yields exactly three DeadlockInfos, one per enumerated cycle
[1,2], [1,2,3] and [2,3]; each victim is the numerically smallest member of
its cycle, so the DeadlockInfo of the full cycle has victim
min(1,2,3) = 1 and its conflicting_transactions contain all three
transactions. -/
theorem detect_deadlocks_three_cycle_amended (now : Nat) :
    detectAndResolveDeadlocks cycleLocks now
      = Except.ok
        [{ transaction_id := 1, conflicting_transactions := [1, 2]
           conflicting_resources := ["ra", "rb", "rc"], detected_at := now },
         { transaction_id := 1, conflicting_transactions := [1, 2, 3]
           conflicting_resources := ["ra", "rb", "rc"], detected_at := now },
         { transaction_id := 2, conflicting_transactions := [2, 3]
           conflicting_resources := ["ra", "rb", "rc"], detected_at := now }] := rfl

end Orchestrator
